import Mathlib

/-! Shallow embedding of the FinInsight frontend (React client) for verification.

The repository under verification consists of the React presentation layer:
`PortfolioForm` (portfolio submission form and its validation),
`JobTracker` (status polling), `ResultsView` (result metrics display) and
`HistoryView` (history listing).  Numbers are modelled by `ℚ`; the JavaScript
`Number(value)` coercion, which can yield `NaN`, is modelled by an
`Option ℚ`-valued coercion on a small inductive of possible field contents.
-/

namespace FinInsight

/-- Content of a numeric form field.  A field holds either a value whose
JavaScript `Number(...)` coercion is the rational `q`, the empty string
(whose coercion is `0`, though the form flags it as missing), or a
non-numeric string (whose coercion is `NaN`). -/
inductive NumInput where
  | num (q : ℚ)
  | empty
  | nonNumeric
deriving DecidableEq, Repr

namespace NumInput

/-- JavaScript `Number(value)`: `none` models `NaN`; the empty string coerces to `0`. -/
def toNum : NumInput → Option ℚ
  | num q => some q
  | empty => some 0
  | nonNumeric => none

/-- Total variant of `toNum` used where the code applies `Number(...)` after
`isFormValid` has already ruled out the `NaN` case. -/
def toNumD : NumInput → ℚ
  | num q => q
  | empty => 0
  | nonNumeric => 0

end NumInput

/-- JavaScript `s.toUpperCase()` on a ticker string: uppercase every
character. -/
def jsToUpper (s : String) : String :=
  ⟨s.data.map Char.toUpper⟩

/-- JavaScript `a || b` on an optional string `a` (falsy when absent or
empty) with fallback `b`. -/
def jsOrDefault (a : Option String) (b : String) : String :=
  match a with
  | some s => if s == "" then b else s
  | none => b

/-- One row of the asset table in `PortfolioForm`: a ticker text field and a
numeric weight field. -/
structure Asset where
  ticker : String
  weight : NumInput
deriving DecidableEq, Repr

/-- State of `PortfolioForm` relevant to validation and submission:
`name`, `initial`, `startDate`, `endDate`, `assets`, the per-index weight
error messages (`weightErrors`, an object keyed by asset index), the
`initialError` message and the `loading` flag. -/
structure FormState where
  name : String
  initial : NumInput
  startDate : String
  endDate : String
  assets : List Asset
  weightErrors : List (Nat × String)
  initialError : String
  loading : Bool
deriving DecidableEq, Repr

/-- The weight validation message computed in `updateAsset` when the weight
field of an asset changes: empty field → "Weight is required"; `NaN` →
"Enter a numeric weight"; outside `[0, 1]` → "Weight must be between 0 and
1"; otherwise no message. -/
def weightMessage : NumInput → String
  | .empty => "Weight is required"
  | .nonNumeric => "Enter a numeric weight"
  | .num q => if q < 0 ∨ 1 < q then "Weight must be between 0 and 1" else ""

/-- Per-asset check inside `isFormValid`: the ticker is truthy (non-empty)
and `Number(asset.weight)` is not `NaN` and lies in `[0, 1]`. -/
def assetOk (a : Asset) : Bool :=
  a.ticker != "" &&
    (match a.weight.toNum with
     | some q => decide (0 ≤ q) && decide (q ≤ 1)
     | none => false)

/-- The `isFormValid` memo from `PortfolioForm`: not loading, `name` truthy,
`Number(initial) > 0` with no `initialError`, both date strings truthy,
at least one asset, all recorded weight error messages empty, and every
asset passing `assetOk`. -/
def isFormValid (s : FormState) : Bool :=
  let initialValid :=
    (match s.initial.toNum with
     | some q => decide (0 < q)
     | none => false) && s.initialError == ""
  let weightsValid :=
    s.weightErrors.all (fun p => p.2 == "") && s.assets.all assetOk
  !s.loading && s.name != "" && initialValid &&
    s.startDate != "" && s.endDate != "" &&
    decide (0 < s.assets.length) && weightsValid

/-- The weight total `assets.reduce((sum, a) => sum + Number(a.weight), 0)` from `submit`. -/
def totalWeight (s : FormState) : ℚ :=
  s.assets.foldl (fun acc a => acc + a.weight.toNumD) 0

/-- One entry of the `assets` array in the submitted JSON payload:
the mapped fields: ticker uppercased by toUpperCase, weight coerced by Number. -/
structure PayloadAsset where
  ticker : String
  weight : ℚ
deriving DecidableEq, Repr

/-- The JSON payload `submit` posts as the `portfolio` body field. -/
structure PortfolioPayload where
  name : String
  initial_value : ℚ
  start_date : String
  end_date : String
  assets : List PayloadAsset
deriving DecidableEq, Repr

/-- The payload built in `submit` from the form state. -/
def portfolioPayload (s : FormState) : PortfolioPayload :=
  { name := s.name
    initial_value := s.initial.toNumD
    start_date := s.startDate
    end_date := s.endDate
    assets := s.assets.map fun a => { ticker := jsToUpper a.ticker, weight := a.weight.toNumD } }

/-- The HTTP request `submit` issues on the successful path:
`axios.post(apiUrl + "/jobs/backtest", {portfolio: payload})`. -/
structure JobCreateRequest where
  method : String
  path : String
  portfolio : PortfolioPayload
deriving DecidableEq, Repr

/-- Outcome of one call to `submit`: an early return with the generic form
error when `isFormValid` is false, a synchronous rejection with the
weight-sum error (before any request), or the job-creation request being
sent. -/
inductive SubmitOutcome where
  | blocked (msg : String)
  | rejected (msg : String)
  | sent (req : JobCreateRequest)
deriving DecidableEq, Repr

/-- The `submit` handler of `PortfolioForm` up to the point the request is
issued: guard on `isFormValid`, then the weight-sum tolerance check
`Math.abs(totalWeight - 1) > 0.001`, then the POST to `/jobs/backtest`. -/
def submit (s : FormState) : SubmitOutcome :=
  if ¬ isFormValid s then
    .blocked "Please resolve validation errors before submitting."
  else if 1/1000 < |totalWeight s - 1| then
    .rejected "Asset weights must sum to 1.0"
  else
    .sent { method := "POST", path := "/jobs/backtest", portfolio := portfolioPayload s }

/-- Success body of the job-creation endpoint as read by `submit`:
`data.job_id`. -/
structure SubmitSuccessData where
  job_id : String
deriving DecidableEq, Repr

/-- Result of the `axios.post` call as observed by the `try`/`catch` of
`submit`: either the success payload, or an error carrying the
optional `response.data.detail` field and the generic error `message`. -/
inductive SubmitHttpResult where
  | ok (data : SubmitSuccessData)
  | err (detail : Option String) (message : String)
deriving DecidableEq, Repr

/-- User-facing outcome of the response handling in `submit`: on success the
job id from `data.job_id` is stored and reported; on error the message is
`err.response?.data?.detail || err.message`. -/
inductive SubmitUiOutcome where
  | accepted (jobId : String)
  | failed (message : String)
deriving DecidableEq, Repr

/-- Response handling of `submit`. -/
def handleSubmitResult : SubmitHttpResult → SubmitUiOutcome
  | .ok data => .accepted data.job_id
  | .err detail message => .failed (jsOrDefault detail message)

/-! Section: asset-list operations of `PortfolioForm`.

The asset-list state machine behind the Add / Remove buttons and the
per-row text fields.  `removeAsset` mirrors
`assets.filter((_, i) => i !== index)`, i.e. removal of the element at the
given index when it is in range. -/

/-- The `addAsset` handler: appends an asset with empty ticker and weight 0. -/
def addAsset (l : List Asset) : List Asset :=
  l ++ [{ ticker := "", weight := .num 0 }]

/-- The filter `assets.filter((_, i) => i !== index)`: drop the element at `i`. -/
def removeAsset : List Asset → Nat → List Asset
  | [], _ => []
  | _ :: t, 0 => t
  | a :: t, i + 1 => a :: removeAsset t i

/-- The Remove icon button is rendered with `disabled={assets.length === 1}`. -/
def removeDisabled (l : List Asset) : Bool :=
  l.length == 1

/-- Effect of clicking the Remove button for row `i`: a no-op while the
button is disabled (exactly one asset), otherwise `removeAsset`. -/
def removeAssetClick (l : List Asset) (i : Nat) : List Asset :=
  if removeDisabled l then l else removeAsset l i

/-- The `updateAsset(i, key, value)` handler restricted to the asset list:
`copy[i][key] = value` for an in-range index. -/
def updateAt : List Asset → Nat → (Asset → Asset) → List Asset
  | [], _, _ => []
  | a :: t, 0, f => f a :: t
  | a :: t, i + 1, f => a :: updateAt t i f

/-- User interactions that modify the asset list of the form. -/
inductive FormAction where
  | add
  | removeClick (i : Nat)
  | setTicker (i : Nat) (v : String)
  | setWeight (i : Nat) (v : NumInput)
deriving DecidableEq, Repr

/-- Effect of one interaction on the asset list. -/
def stepAssets (l : List Asset) : FormAction → List Asset
  | .add => addAsset l
  | .removeClick i => removeAssetClick l i
  | .setTicker i v => updateAt l i fun a => { a with ticker := v }
  | .setWeight i v => updateAt l i fun a => { a with weight := v }

/-- Initial asset list of the form: one asset with ticker AAPL and weight 0.5. -/
def initAssets : List Asset :=
  [{ ticker := "AAPL", weight := .num (1/2) }]

/-- The asset list after a sequence of interactions from the initial state. -/
def runForm (acts : List FormAction) : List Asset :=
  acts.foldl stepAssets initAssets

/-! Section: the `JobTracker` component. -/

/-- The poll interval constant: 2000 milliseconds. -/
def POLL_INTERVAL : Nat := 2000

/-- Body of `GET /jobs/status/{id}` as read by the tracker: the `status`
string and the optional `error` field. -/
structure StatusResp where
  status : String
  error : Option String
deriving DecidableEq, Repr

/-- What one firing of the polling interval callback does after
`fetchStatus` returns `s`: on status SUCCESS fetch the result
and stop polling; on FAILED or FAILURE stop polling and report the error
field (or the fallback failure message); otherwise (including a failed
fetch, `s` null) keep polling. -/
inductive PollAction where
  | fetchResultStop
  | stopReportError (msg : String)
  | keepPolling
deriving DecidableEq, Repr

/-- The branch structure of the interval callback in the auto-polling
`useEffect`. -/
def pollStep (s : Option StatusResp) : PollAction :=
  match s with
  | none => .keepPolling
  | some r =>
    if r.status == "SUCCESS" then .fetchResultStop
    else if r.status == "FAILED" || r.status == "FAILURE" then
      .stopReportError (jsOrDefault r.error "Job failed")
    else .keepPolling

/-- What `handleSubmit` of `JobTracker` does after its one `fetchStatus`
call: fetch the result on `SUCCESS`, report the error on `FAILED` or
`FAILURE`, start polling on any other truthy response, do nothing when the
fetch failed. -/
inductive TrackAction where
  | fetchResultNow
  | reportError (msg : String)
  | startPolling
  | noAction
deriving DecidableEq, Repr

/-- The branch structure of `handleSubmit` in `JobTracker`. -/
def handleSubmitStep (s : Option StatusResp) : TrackAction :=
  match s with
  | none => .noAction
  | some r =>
    if r.status == "SUCCESS" then .fetchResultNow
    else if r.status == "FAILED" || r.status == "FAILURE" then
      .reportError (jsOrDefault r.error "Job failed")
    else .startPolling

/-- An HTTP request issued by the tracker while polling. -/
structure PollRequest where
  method : String
  path : String
deriving DecidableEq, Repr

/-- The request issued by `fetchStatus`. -/
def statusRequest (id : String) : PollRequest :=
  { method := "GET", path := "/jobs/status/" ++ id }

/-- The request issued by `fetchResult`. -/
def resultRequest (id : String) : PollRequest :=
  { method := "GET", path := "/jobs/results/" ++ id }

/-- Tracker state governing the polling effect: the `polling` flag and the
job id text field.  The effect installs an interval only when
`polling && jobId` holds. -/
structure TrackerState where
  polling : Bool
  jobId : String
deriving DecidableEq, Repr

/-- One firing of the polling interval: the requests issued and the next
tracker state.  When the guard `polling && jobId` of the effect fails no
interval exists, so nothing is issued; otherwise `fetchStatus` runs and the
callback acts on its response per `pollStep`. -/
def pollTick (st : TrackerState) (resp : Option StatusResp) :
    TrackerState × List PollRequest :=
  if st.polling && st.jobId != "" then
    match pollStep resp with
    | .fetchResultStop =>
        ({ st with polling := false }, [statusRequest st.jobId, resultRequest st.jobId])
    | .stopReportError _ =>
        ({ st with polling := false }, [statusRequest st.jobId])
    | .keepPolling => (st, [statusRequest st.jobId])
  else (st, [])

/-- A run of interval firings: the final state and all requests issued. -/
def runTicks (st : TrackerState) (resps : List (Option StatusResp)) :
    TrackerState × List PollRequest :=
  match resps with
  | [] => (st, [])
  | r :: rs =>
    let (st1, reqs1) := pollTick st r
    let (st2, reqs2) := runTicks st1 rs
    (st2, reqs1 ++ reqs2)

/-- Modelled from the spec: the backend job status (the Job Orchestrator and
Job Store are not part of the sources of this repository).  Per the spec,
`status` is one of `PENDING`, `SUCCESS`, `FAILURE`, modelled as a closed
tagged variant. -/
inductive Status where
  | PENDING
  | SUCCESS
  | FAILURE
deriving DecidableEq, Repr

/-- The wire string for a backend status. -/
def statusString : Status → String
  | .PENDING => "PENDING"
  | .SUCCESS => "SUCCESS"
  | .FAILURE => "FAILURE"

/-! Section: the `ResultsView` component. -/

/-- The `result.result` record as read by `ResultsView`. -/
structure BacktestResultView where
  portfolio : String
  final_value : ℚ
  sharpe_ratio : ℚ
  volatility : ℚ
deriving DecidableEq, Repr

/-- The `returnPercentage` value in `ResultsView` before display rounding:
`(r.final_value - 10000) / 10000 * 100`. -/
def returnPercentage (r : BacktestResultView) : ℚ :=
  (r.final_value - 10000) / 10000 * 100

/-- Modelled from the spec: the total-return percentage of a portfolio with
the given initial value, `(final - initial) / initial * 100`.  Stated for
comparison with `returnPercentage`, which hard-codes the `10000`
baseline. -/
def trueReturnPercentage (initial final : ℚ) : ℚ :=
  (final - initial) / initial * 100

/-! Section: the `HistoryView` component. -/

/-- One entry of the `/jobs/history` response as read by `HistoryView`. -/
structure HistoryEntry where
  job_id : String
  portfolio_name : String
  final_value : ℚ
  created_at : String
deriving DecidableEq, Repr

/-- The `/jobs/history` response body: either a JSON array of entries or
anything else (`Array.isArray(data)` false). -/
inductive HistoryResponse where
  | arrayOf (entries : List HistoryEntry)
  | nonArray
deriving DecidableEq, Repr

/-- The coercion `Array.isArray(data) ? data : []` in `fetchHistory`. -/
def entriesOf : HistoryResponse → List HistoryEntry
  | .arrayOf l => l
  | .nonArray => []

/-- State of `HistoryView`: the stored list, the loading flag and the error
message. -/
structure HistoryState where
  historyData : List HistoryEntry
  isLoading : Bool
  error : Option String
deriving DecidableEq, Repr

/-- The state updates of a successful `fetchHistory`: `setError(null)`,
`setHistoryData(Array.isArray(data) ? data : [])`, `setIsLoading(false)`. -/
def applyFetchSuccess (st : HistoryState) (resp : HistoryResponse) : HistoryState :=
  { st with historyData := entriesOf resp, isLoading := false, error := none }

/-- One rendered table row: the React `key` and the three cells, each read
from one field of the entry. -/
structure HistoryRow where
  rowKey : String
  nameCell : String
  valueCell : ℚ
  dateCell : String
deriving DecidableEq, Repr

/-- What `HistoryView` renders. -/
inductive HistoryRender where
  | spinner
  | errorAlert (msg : String)
  | emptyMessage (msg : String)
  | table (rows : List HistoryRow)
deriving DecidableEq, Repr

/-- The row rendered for one entry: `key={item.job_id}` and cells reading
`portfolio_name`, `final_value` and `created_at`. -/
def renderRow (e : HistoryEntry) : HistoryRow :=
  { rowKey := e.job_id
    nameCell := e.portfolio_name
    valueCell := e.final_value
    dateCell := e.created_at }

/-- The render function of `HistoryView`: spinner while loading, alert on
error, the no-history message on an empty list, otherwise the table. -/
def renderHistory (st : HistoryState) : HistoryRender :=
  if st.isLoading then .spinner
  else
    match st.error with
    | some m => .errorAlert m
    | none =>
      if st.historyData.length == 0 then
        .emptyMessage "No backtest history found."
      else
        .table (st.historyData.map renderRow)

/-! Section: concrete form states used as witnesses and counterexamples. -/

/-- A fully valid form state: two assets with weights `0.5` each. -/
def sValid : FormState :=
  { name := "My Portfolio"
    initial := .num 10000
    startDate := "2024-01-01"
    endDate := "2024-12-31"
    assets := [{ ticker := "AAPL", weight := .num (1/2) }, { ticker := "MSFT", weight := .num (1/2) }]
    weightErrors := []
    initialError := ""
    loading := false }

/-- A form state whose weights sum to `0.8`. -/
def sBadSum : FormState :=
  { sValid with
    assets := [{ ticker := "AAPL", weight := .num (1/2) }, { ticker := "MSFT", weight := .num (3/10) }] }

/-- A form state whose start date equals its end date. -/
def sBadDates : FormState :=
  { sValid with startDate := "2024-06-01", endDate := "2024-06-01" }

/-- A form state with two tickers equal up to case. -/
def sDup : FormState :=
  { sValid with
    assets := [{ ticker := "AAPL", weight := .num (1/2) }, { ticker := "aapl", weight := .num (1/2) }] }

/-- A form state with a single asset of weight `2`. -/
def sBadWeight : FormState :=
  { sValid with assets := [{ ticker := "AAPL", weight := .num 2 }] }

/-! Section: evaluation lemmas for `submit`. -/

/-- On an invalid form, `submit` returns early with the generic error. -/
theorem submit_eq_blocked (s : FormState) (hv : isFormValid s = false) :
    submit s = .blocked "Please resolve validation errors before submitting." := by
  unfold submit
  rw [if_pos]
  simp [hv]

/-- On a valid form, `submit` reduces to the weight-sum check. -/
theorem submit_eq_of_valid (s : FormState) (hv : isFormValid s = true) :
    submit s =
      if 1/1000 < |totalWeight s - 1| then .rejected "Asset weights must sum to 1.0"
      else .sent { method := "POST", path := "/jobs/backtest", portfolio := portfolioPayload s } := by
  unfold submit
  rw [if_neg]
  simp [hv]

/-- Evaluation of `isFormValid` on the valid example state. -/
theorem isFormValid_sValid : isFormValid sValid = true := by
  norm_num [isFormValid, sValid, assetOk, NumInput.toNum] <;> decide

/-- Evaluation of `totalWeight` on the valid example state. -/
theorem totalWeight_sValid : totalWeight sValid = 1 := by
  norm_num [totalWeight, sValid, NumInput.toNumD]

/-! Section: claim theorems. -/

/-- C1: whenever `|sum(weights) - 1| > 0.001` the submission never sends the
job-creation request, and (when field validation passes, which is when the
weight-sum check runs at all) the outcome is the synchronous rejection with
the weight-sum-specific reason; a weight sum of exactly `1` is never
rejected by this check. -/
theorem submit_weight_sum_gate (s : FormState) :
    (1/1000 < |totalWeight s - 1| →
      (∀ req, submit s ≠ .sent req) ∧
      (isFormValid s = true → submit s = .rejected "Asset weights must sum to 1.0")) ∧
    (totalWeight s = 1 → ∀ msg, submit s ≠ .rejected msg) := by
  constructor
  · intro h
    constructor
    · intro req hreq
      cases hv : isFormValid s with
      | false => rw [submit_eq_blocked s hv] at hreq; exact SubmitOutcome.noConfusion hreq
      | true =>
        rw [submit_eq_of_valid s hv, if_pos h] at hreq
        exact SubmitOutcome.noConfusion hreq
    · intro hv
      rw [submit_eq_of_valid s hv, if_pos h]
  · intro h msg hmsg
    have hc : ¬ (1/1000 < |totalWeight s - 1|) := by
      rw [h]
      simp
    cases hv : isFormValid s with
    | false => rw [submit_eq_blocked s hv] at hmsg; exact SubmitOutcome.noConfusion hmsg
    | true =>
      rw [submit_eq_of_valid s hv, if_neg hc] at hmsg
      exact SubmitOutcome.noConfusion hmsg

/-- Witness for C1: the `0.8`-sum state is rejected with the weight-sum
reason, and the exactly-`1.0` state is not rejected by this check. -/
theorem submit_weight_sum_gate_witness :
    submit sBadSum = .rejected "Asset weights must sum to 1.0" ∧
    submit sValid ≠ .rejected "Asset weights must sum to 1.0" := by
  have hsum : totalWeight sBadSum = 4/5 := by
    norm_num [totalWeight, sBadSum, sValid, NumInput.toNumD]
  have habs : (1:ℚ)/1000 < |totalWeight sBadSum - 1| := by
    rw [hsum, show ((4:ℚ)/5 - 1) = -(1/5) by norm_num, abs_neg,
      abs_of_nonneg (by norm_num : (0:ℚ) ≤ 1/5)]
    norm_num
  have hvb : isFormValid sBadSum = true := by
    norm_num [isFormValid, sBadSum, sValid, assetOk, NumInput.toNum] <;> decide
  exact ⟨((submit_weight_sum_gate sBadSum).1 habs).2 hvb,
    (submit_weight_sum_gate sValid).2 totalWeight_sValid _⟩

/-- C2 counterexample: a form state whose start date equals its end date
(so `start_date < end_date` fails) passes `isFormValid` and the
job-creation request is sent. -/
theorem submit_equal_dates_cex :
    sBadDates.startDate = sBadDates.endDate ∧
    isFormValid sBadDates = true ∧
    submit sBadDates =
      .sent { method := "POST", path := "/jobs/backtest", portfolio := portfolioPayload sBadDates } := by
  have hv : isFormValid sBadDates = true := by
    norm_num [isFormValid, sBadDates, sValid, assetOk, NumInput.toNum] <;> decide
  have ht : totalWeight sBadDates = 1 := by
    norm_num [totalWeight, sBadDates, sValid, NumInput.toNumD]
  refine ⟨rfl, hv, ?_⟩
  rw [submit_eq_of_valid _ hv, if_neg (by rw [ht]; simp)]

/-- C2 (amended): client-side validation only requires the two date fields
to be non-empty strings; it does not parse them or compare them. -/
theorem isFormValid_requires_dates (s : FormState) (h : isFormValid s = true) :
    s.startDate ≠ "" ∧ s.endDate ≠ "" := by
  simp only [isFormValid, Bool.and_eq_true, bne_iff_ne, ne_eq] at h
  exact ⟨h.1.1.1.2, h.1.1.2⟩

/-- Witness for the amended C2 at the valid state. -/
theorem isFormValid_requires_dates_witness :
    sValid.startDate ≠ "" ∧ sValid.endDate ≠ "" :=
  isFormValid_requires_dates sValid isFormValid_sValid

/-- C3 counterexample: a portfolio with two tickers equal up to case passes
`isFormValid` and is sent, both tickers normalizing to the same uppercase
string in the payload. -/
theorem submit_duplicate_ticker_cex :
    sDup.assets.map Asset.ticker = ["AAPL", "aapl"] ∧
    isFormValid sDup = true ∧
    (portfolioPayload sDup).assets.map PayloadAsset.ticker = ["AAPL", "AAPL"] ∧
    submit sDup =
      .sent { method := "POST", path := "/jobs/backtest", portfolio := portfolioPayload sDup } := by
  have hv : isFormValid sDup = true := by
    norm_num [isFormValid, sDup, sValid, assetOk, NumInput.toNum] <;> decide
  have ht : totalWeight sDup = 1 := by
    norm_num [totalWeight, sDup, sValid, NumInput.toNumD]
  refine ⟨rfl, hv, by decide, ?_⟩
  rw [submit_eq_of_valid _ hv, if_neg (by rw [ht]; simp)]

/-- C3 (amended): validation requires a non-empty asset list with every
ticker non-empty, and each ticker is uppercased in the payload that is
sent; but ticker uniqueness (even up to case) is not checked. -/
theorem isFormValid_assets_checks (s : FormState) (h : isFormValid s = true) :
    s.assets ≠ [] ∧
    (∀ a ∈ s.assets, a.ticker ≠ "") ∧
    ∀ req, submit s = .sent req →
      req.portfolio.assets.map PayloadAsset.ticker = s.assets.map (fun a => jsToUpper a.ticker) := by
  have h' := h
  simp only [isFormValid, Bool.and_eq_true, bne_iff_ne, ne_eq, List.all_eq_true,
    decide_eq_true_eq] at h'
  refine ⟨?_, ?_, ?_⟩
  · intro hnil
    rw [hnil] at h'
    simp at h'
  · intro a ha
    have := h'.2.2 a ha
    simp only [assetOk, Bool.and_eq_true, bne_iff_ne, ne_eq] at this
    exact this.1
  · intro req hreq
    simp only [submit, h] at hreq
    split_ifs at hreq with hw
    cases hreq
    simp [portfolioPayload, List.map_map]

/-- Witness for the amended C3 at the duplicate-ticker state. -/
theorem isFormValid_assets_checks_witness :
    sDup.assets ≠ [] ∧
    (portfolioPayload sDup).assets.map PayloadAsset.ticker =
      sDup.assets.map (fun a => jsToUpper a.ticker) := by
  have hv : isFormValid sDup = true := by
    norm_num [isFormValid, sDup, sValid, assetOk, NumInput.toNum] <;> decide
  have ht : totalWeight sDup = 1 := by
    norm_num [totalWeight, sDup, sValid, NumInput.toNumD]
  have h := isFormValid_assets_checks sDup hv
  refine ⟨h.1,
    h.2.2 { method := "POST", path := "/jobs/backtest", portfolio := portfolioPayload sDup } ?_⟩
  rw [submit_eq_of_valid _ hv, if_neg (by rw [ht]; simp)]

/-- C4: a member asset whose weight coerces to `NaN` or lies outside
`[0, 1]` makes `isFormValid` false (so submission is blocked and no request
is sent), and `updateAsset` computes a non-empty weight-specific message
for that weight. -/
theorem invalid_weight_blocks_submit (s : FormState) (a : Asset)
    (ha : a ∈ s.assets)
    (hw : a.weight.toNum = none ∨ ∃ q, a.weight.toNum = some q ∧ (q < 0 ∨ 1 < q)) :
    isFormValid s = false ∧ (∀ req, submit s ≠ .sent req) ∧ weightMessage a.weight ≠ "" := by
  have hak : assetOk a = false := by
    rcases hw with hnan | ⟨q, hq, hout⟩
    · simp [assetOk, hnan]
    · rcases hout with hlt | hgt
      · have hn : ¬ (0 ≤ q) := not_le.mpr hlt
        simp [assetOk, hq, hn]
      · have hn : ¬ (q ≤ 1) := not_le.mpr hgt
        simp [assetOk, hq, hn]
  have hv : isFormValid s = false := by
    cases hv : isFormValid s
    · rfl
    · exfalso
      simp only [isFormValid, Bool.and_eq_true, List.all_eq_true] at hv
      have := hv.2.2 a ha
      rw [hak] at this
      exact Bool.false_ne_true this
  refine ⟨hv, ?_, ?_⟩
  · intro req hreq
    rw [submit_eq_blocked s hv] at hreq
    exact SubmitOutcome.noConfusion hreq
  · cases hwc : a.weight with
    | empty =>
      exfalso
      rw [hwc] at hw
      simp only [NumInput.toNum] at hw
      rcases hw with hnan | ⟨q, hq, hout⟩
      · exact Option.noConfusion hnan
      · have hq0 : q = 0 := (Option.some.inj hq).symm
        subst hq0
        rcases hout with hlt | hgt
        · exact absurd hlt (by norm_num)
        · exact absurd hgt (by norm_num)
    | nonNumeric => simp [weightMessage]
    | num q =>
      rw [hwc] at hw
      simp only [NumInput.toNum] at hw
      rcases hw with hnan | ⟨q', hq', hout⟩
      · exact Option.noConfusion hnan
      · have hqq : q = q' := Option.some.inj hq'
        subst hqq
        simp [weightMessage, hout]

/-- Witness for C4: the single-asset state with weight `2` is invalid and
carries the out-of-range message. -/
theorem invalid_weight_blocks_submit_witness :
    isFormValid sBadWeight = false ∧ weightMessage (NumInput.num 2) ≠ "" := by
  have h := invalid_weight_blocks_submit sBadWeight { ticker := "AAPL", weight := .num 2 }
    (List.Mem.head _) (Or.inr ⟨2, rfl, Or.inr (by norm_num)⟩)
  exact ⟨h.1, h.2.2⟩

/-- C5 counterexample: the terminal-state handling of the tracker also fires on
the status string `"FAILED"`, which is neither `SUCCESS` nor `FAILURE`:
both the polling callback and `handleSubmit` stop and report the error on
it. -/
theorem pollStep_failed_cex :
    pollStep (some { status := "FAILED", error := none }) = .stopReportError "Job failed" ∧
    handleSubmitStep (some { status := "FAILED", error := none }) = .reportError "Job failed" ∧
    "FAILED" ≠ "SUCCESS" ∧ "FAILED" ≠ "FAILURE" := by
  refine ⟨rfl, rfl, by decide, by decide⟩

/-- C5 (amended): the backend status (modelled from the spec as a closed
variant) is one of `PENDING`, `SUCCESS`, `FAILURE`; the terminal
handling fires on `SUCCESS` (fetch result, stop polling), on `FAILURE`
(stop polling, report the stored error) and additionally on the string
`FAILED`; every other status string keeps the job non-terminal. -/
theorem status_terminal_handling :
    (∀ st : Status,
      statusString st = "PENDING" ∨ statusString st = "SUCCESS" ∨ statusString st = "FAILURE") ∧
    (∀ e, pollStep (some { status := "SUCCESS", error := e }) = .fetchResultStop ∧
      handleSubmitStep (some { status := "SUCCESS", error := e }) = .fetchResultNow) ∧
    (∀ e, pollStep (some { status := "FAILURE", error := e }) =
        .stopReportError (jsOrDefault e "Job failed") ∧
      handleSubmitStep (some { status := "FAILURE", error := e }) =
        .reportError (jsOrDefault e "Job failed")) ∧
    (∀ e, pollStep (some { status := "FAILED", error := e }) =
      .stopReportError (jsOrDefault e "Job failed")) ∧
    (∀ r : StatusResp, r.status ≠ "SUCCESS" → r.status ≠ "FAILED" → r.status ≠ "FAILURE" →
      pollStep (some r) = .keepPolling ∧ handleSubmitStep (some r) = .startPolling) ∧
    pollStep none = .keepPolling := by
  refine ⟨?_, fun e => ⟨rfl, rfl⟩, fun e => ⟨rfl, rfl⟩, fun e => rfl, ?_, rfl⟩
  · intro st
    cases st
    · exact Or.inl rfl
    · exact Or.inr (Or.inl rfl)
    · exact Or.inr (Or.inr rfl)
  · intro r h1 h2 h3
    have e1 : (r.status == "SUCCESS") = false := beq_eq_false_iff_ne.mpr h1
    have e2 : (r.status == "FAILED") = false := beq_eq_false_iff_ne.mpr h2
    have e3 : (r.status == "FAILURE") = false := beq_eq_false_iff_ne.mpr h3
    exact ⟨by simp [pollStep, e1, e2, e3], by simp [handleSubmitStep, e1, e2, e3]⟩

/-- Witness for the amended C5: a `PENDING` response keeps polling, a
`SUCCESS` response fetches the result and stops. -/
theorem status_terminal_handling_witness :
    pollStep (some { status := "PENDING", error := none }) = .keepPolling ∧
    pollStep (some { status := "SUCCESS", error := none }) = .fetchResultStop :=
  ⟨(status_terminal_handling.2.2.2.2.1 { status := "PENDING", error := none }
      (by decide) (by decide) (by decide)).1,
   (status_terminal_handling.2.1 none).1⟩

/-- C6: every sent submission is a POST to `/jobs/backtest` carrying the
portfolio payload; a success response yields the job id read from
`job_id`, and an error response with a non-empty `detail` field yields
exactly that detail as the user-facing reason. -/
theorem submit_request_contract :
    (∀ s req, submit s = .sent req →
      req.method = "POST" ∧ req.path = "/jobs/backtest" ∧ req.portfolio = portfolioPayload s) ∧
    (∀ jid, handleSubmitResult (.ok { job_id := jid }) = .accepted jid) ∧
    (∀ d m, d ≠ "" → handleSubmitResult (.err (some d) m) = .failed d) := by
  refine ⟨?_, fun jid => rfl, ?_⟩
  · intro s req hreq
    unfold submit at hreq
    split_ifs at hreq
    all_goals first
      | exact SubmitOutcome.noConfusion hreq
      | (cases hreq; exact ⟨rfl, rfl, rfl⟩)
  · intro d m hd
    have hne : (d == "") = false := beq_eq_false_iff_ne.mpr hd
    simp [handleSubmitResult, jsOrDefault, hne]

/-- Witness for C6 at the valid example state and concrete responses. -/
theorem submit_request_contract_witness :
    handleSubmitResult (.ok { job_id := "abc-123" }) = .accepted "abc-123" ∧
    handleSubmitResult (.err (some "Invalid portfolio") "Request failed") =
      .failed "Invalid portfolio" ∧
    ({ method := "POST", path := "/jobs/backtest", portfolio := portfolioPayload sValid } :
      JobCreateRequest).path = "/jobs/backtest" := by
  have hsent : submit sValid =
      .sent { method := "POST", path := "/jobs/backtest", portfolio := portfolioPayload sValid } := by
    rw [submit_eq_of_valid _ isFormValid_sValid, if_neg (by rw [totalWeight_sValid]; simp)]
  exact ⟨submit_request_contract.2.1 "abc-123",
    submit_request_contract.2.2 _ _ (by decide),
    (submit_request_contract.1 sValid _ hsent).2.1⟩

/-- C7: the polling interval is the constant 2000 ms (at least 1 second),
every request a poll tick issues is a GET (a pure read), observing a
terminal status turns polling off, and with polling off no further
requests are ever issued. -/
theorem polling_contract :
    POLL_INTERVAL = 2000 ∧ 1000 ≤ POLL_INTERVAL ∧
    (∀ st resp, ∀ r ∈ (pollTick st resp).2, r.method = "GET") ∧
    (∀ st r, st.jobId ≠ "" → (r.status = "SUCCESS" ∨ r.status = "FAILURE") →
      (pollTick st (some r)).1.polling = false) ∧
    (∀ st resps, st.polling = false → runTicks st resps = (st, [])) := by
  refine ⟨rfl, by decide, ?_, ?_, ?_⟩
  · intro st resp r hr
    unfold pollTick at hr
    split_ifs at hr
    · cases hp : pollStep resp <;> rw [hp] at hr <;>
        simp only [List.mem_cons, List.not_mem_nil, or_false] at hr
      · rcases hr with rfl | rfl <;> rfl
      · rcases hr with rfl
        rfl
      · rcases hr with rfl
        rfl
    · simp at hr
  · intro st r hjob hterm
    unfold pollTick
    by_cases hp : st.polling
    · have hj : (st.jobId != "") = true := bne_iff_ne.mpr hjob
      rw [if_pos (by rw [hp, hj]; rfl)]
      rcases hterm with h | h <;> simp [pollStep, h]
    · have hp' : st.polling = false := by simpa using hp
      rw [if_neg (by simp [hp'])]
      exact hp'
  · intro st resps hp
    induction resps with
    | nil => rfl
    | cons r rs ih =>
      have h1 : pollTick st r = (st, []) := by
        unfold pollTick
        rw [if_neg (by simp [hp])]
      simp only [runTicks, h1]
      simp [ih]

/-- Witness for C7: a `SUCCESS` observation stops polling, a stopped
tracker issues nothing, and the status request is a GET. -/
theorem polling_contract_witness :
    (pollTick { polling := true, jobId := "job-1" }
      (some { status := "SUCCESS", error := none })).1.polling = false ∧
    runTicks { polling := false, jobId := "job-1" }
      [some { status := "PENDING", error := none }] =
      ({ polling := false, jobId := "job-1" }, []) ∧
    (statusRequest "job-1").method = "GET" := by
  refine ⟨polling_contract.2.2.2.1 _ _ (by decide) (Or.inl rfl),
    polling_contract.2.2.2.2 _ _ rfl, ?_⟩
  exact polling_contract.2.2.1 { polling := true, jobId := "job-1" }
    (some { status := "PENDING", error := none }) _ (List.Mem.head _)

/-- C8: the Total Return percentage computed by `ResultsView` is
`(final_value - 10000) / 10000 * 100`, which agrees with the true return
only for the fixed baseline `10000`: against any other nonzero initial
value (and nonzero final value) it differs. -/
theorem returnPercentage_fixed_baseline :
    (∀ r : BacktestResultView, returnPercentage r = trueReturnPercentage 10000 r.final_value) ∧
    (∀ (r : BacktestResultView) (initial : ℚ), initial ≠ 0 → initial ≠ 10000 →
      r.final_value ≠ 0 → returnPercentage r ≠ trueReturnPercentage initial r.final_value) := by
  constructor
  · intro r
    rfl
  · intro r initial h0 h10000 hfv heq
    unfold returnPercentage trueReturnPercentage at heq
    rw [div_mul_eq_mul_div, div_mul_eq_mul_div,
      div_eq_div_iff (by norm_num : (10000:ℚ) ≠ 0) h0] at heq
    have hz : r.final_value * (initial - 10000) = 0 := by linear_combination heq / 100
    rcases mul_eq_zero.mp hz with h | h
    · exact hfv h
    · exact h10000 (sub_eq_zero.mp h)

/-- Example result record displayed by `ResultsView`. -/
def rView : BacktestResultView :=
  { portfolio := "Test", final_value := 12000, sharpe_ratio := 1, volatility := 1/10 }

/-- Witness for C8: with final value 12000 the displayed return matches the
10000-baseline return and differs from the return on a 20000 initial
value. -/
theorem returnPercentage_fixed_baseline_witness :
    returnPercentage rView = trueReturnPercentage 10000 rView.final_value ∧
    returnPercentage rView ≠ trueReturnPercentage 20000 rView.final_value :=
  ⟨returnPercentage_fixed_baseline.1 rView,
   returnPercentage_fixed_baseline.2 rView 20000 (by norm_num) (by norm_num)
     (by norm_num [rView])⟩

/-- Auxiliary: removing an index drops at most one element. -/
theorem removeAsset_length_ge (l : List Asset) (i : Nat) :
    l.length ≤ (removeAsset l i).length + 1 := by
  induction l generalizing i with
  | nil => simp [removeAsset]
  | cons a t ih =>
    cases i with
    | zero => simp [removeAsset]
    | succ j =>
      have := ih j
      simp only [removeAsset, List.length_cons]
      omega

/-- Auxiliary: in-place update preserves length. -/
theorem updateAt_length (l : List Asset) (i : Nat) (f : Asset → Asset) :
    (updateAt l i f).length = l.length := by
  induction l generalizing i with
  | nil => rfl
  | cons a t ih =>
    cases i with
    | zero => rfl
    | succ j => simp [updateAt, ih j]

/-- Auxiliary: every form action preserves non-emptiness of the asset list. -/
theorem stepAssets_length_pos (l : List Asset) (act : FormAction) (h : 0 < l.length) :
    0 < (stepAssets l act).length := by
  cases act with
  | add => simp [stepAssets, addAsset]
  | removeClick i =>
    simp only [stepAssets, removeAssetClick, removeDisabled]
    split_ifs with h1
    · exact h
    · have h2 := removeAsset_length_ge l i
      have h3 : l.length ≠ 1 := by simpa using h1
      omega
  | setTicker i v => simpa [stepAssets, updateAt_length] using h
  | setWeight i v => simpa [stepAssets, updateAt_length] using h

/-- Auxiliary: non-emptiness is preserved along any interaction sequence. -/
theorem foldl_stepAssets_pos (acts : List FormAction) (l : List Asset) (h : 0 < l.length) :
    0 < (acts.foldl stepAssets l).length := by
  induction acts generalizing l with
  | nil => simpa using h
  | cons a rest ih => exact ih _ (stepAssets_length_pos l a h)

/-- C9: the asset list of the form is never empty — the initial state has one
asset, every add/remove/update interaction preserves non-emptiness (the
Remove button is disabled exactly when one asset remains), and
`isFormValid` additionally requires a positive asset count. -/
theorem assets_never_empty :
    0 < initAssets.length ∧
    (∀ acts, 0 < (runForm acts).length) ∧
    (∀ s, isFormValid s = true → 0 < s.assets.length) ∧
    (∀ l, removeDisabled l = true ↔ l.length = 1) := by
  refine ⟨by simp [initAssets],
    fun acts => foldl_stepAssets_pos acts initAssets (by simp [initAssets]), ?_, ?_⟩
  · intro s h
    simp only [isFormValid, Bool.and_eq_true, decide_eq_true_eq] at h
    tauto
  · intro l
    simp [removeDisabled]

/-- Witness for C9: one interaction sequence and the valid example state. -/
theorem assets_never_empty_witness :
    0 < (runForm [FormAction.add, FormAction.removeClick 0]).length ∧
    0 < sValid.assets.length :=
  ⟨assets_never_empty.2.1 [FormAction.add, FormAction.removeClick 0],
   assets_never_empty.2.2.1 sValid isFormValid_sValid⟩

/-- C10: a non-array history payload is stored as the empty list; an empty
history renders the no-history message; a non-empty history renders the
table whose rows read exactly `job_id`, `portfolio_name`, `final_value`
and `created_at` from each entry. -/
theorem history_view_handles (st : HistoryState) :
    ((applyFetchSuccess st .nonArray).historyData = []) ∧
    (st.isLoading = false → st.error = none → st.historyData = [] →
      renderHistory st = .emptyMessage "No backtest history found.") ∧
    (st.isLoading = false → st.error = none → st.historyData ≠ [] →
      renderHistory st = .table (st.historyData.map renderRow)) ∧
    (∀ e, renderRow e =
      { rowKey := e.job_id, nameCell := e.portfolio_name,
        valueCell := e.final_value, dateCell := e.created_at }) := by
  refine ⟨rfl, ?_, ?_, fun e => rfl⟩
  · intro hl he hd
    simp [renderHistory, hl, he, hd]
  · intro hl he hd
    have hlen : (st.historyData.length == 0) = false := by
      simp [List.length_eq_zero, hd]
    simp [renderHistory, hl, he, hlen]

/-- A concrete history entry. -/
def hEntry : HistoryEntry :=
  { job_id := "j1", portfolio_name := "P", final_value := 101, created_at := "2024-01-02" }

/-- Witness for C10: a non-array response stores the empty list and the
empty state renders the no-history message. -/
theorem history_view_handles_witness :
    (applyFetchSuccess { historyData := [hEntry], isLoading := true, error := none }
      .nonArray).historyData = [] ∧
    renderHistory { historyData := [], isLoading := false, error := none } =
      .emptyMessage "No backtest history found." :=
  ⟨(history_view_handles _).1, (history_view_handles _).2.1 rfl rfl rfl⟩

end FinInsight
